import Mathlib

/-!
Recover Peer portal (`src/ak.js`): record store and view controller.

A shallow embedding of the single-page application in `src/ak.js`.

* JavaScript objects are Lean structures, arrays are lists, strings are `String`.
* The ambient objects `DB`, `app`, `localStorage` and `sessionStorage` become one
  explicit `AppState` that every operation takes and returns.
* The clock (`Date.now()`) is an argument `now`, in milliseconds since the epoch.
  The library functions `Date.prototype.toISOString`, the `Date` string
  constructor and `Date.prototype.toLocaleDateString` are arguments of the
  operations that call them.
* `JSON.stringify` followed by `JSON.parse` is the identity on the typed
  collections, so a durable storage entry holds the collection it was written from.
* An uncaught JavaScript exception is `Except.error`; the state it leaves behind is
  the state before the call whenever the model returns `Except.error` before any
  assignment.
-/

namespace RecoverPeer

/-! ## Data model -/

/-- Account record, the object literal built in `register` and `login`. -/
structure Account where
  id : String
  username : String
  role : String
  sobrietyDate : String
  joined : String
  deriving DecidableEq

/-- Meeting record, the shape of the two seed objects of `DB.meetings`. -/
structure Meeting where
  id : Nat
  title : String
  time : String
  type : String
  deriving DecidableEq

/-- Journal entry, the object literal built in `addJournalEntry`. -/
structure JournalEntry where
  id : Int
  userId : String
  content : String
  date : String
  deriving DecidableEq

/-- Support alert, the object literal pushed in `processSupportRequest`. -/
structure SupportAlert where
  userId : String
  timestamp : String
  notifySponsor : Bool
  status : String
  deriving DecidableEq

/-- In-memory collections of the `DB` object. -/
structure Store where
  users : List Account
  meetings : List Meeting
  journals : List JournalEntry
  alerts : List SupportAlert
  deriving DecidableEq

/-- Durable storage, the four `localStorage` keys `rp_users`, `rp_meetings`,
`rp_journals` and `rp_alerts`; `none` is a key that was never written. -/
structure LocalStorage where
  rp_users : Option (List Account)
  rp_meetings : Option (List Meeting)
  rp_journals : Option (List JournalEntry)
  rp_alerts : Option (List SupportAlert)
  deriving DecidableEq

/-- Whole application state: `DB`, `localStorage`, the `sessionStorage` key
`rp_session`, `app.currentUser`, and the page made visible by `showPage`. -/
structure AppState where
  db : Store
  localStorage : LocalStorage
  session : Option Account
  currentUser : Option Account
  page : String
  deriving DecidableEq

/-- User-facing `alert(...)` raised by an operation. -/
inductive Notice where
  | pseudonymTaken
  | accountCreated
  deriving DecidableEq

/-! ## Record store -/

/-- The method `DB.save()`: every collection overwrites its storage key. -/
def DB.save (s : AppState) : AppState :=
  { s with localStorage :=
      { rp_users := some s.db.users
        rp_meetings := some s.db.meetings
        rp_journals := some s.db.journals
        rp_alerts := some s.db.alerts } }

/-- The call `DB.users.find(u => u.username === username)`. -/
def findUser (users : List Account) (username : String) : Option Account :=
  users.find? (fun u => u.username == username)

/-- The assignment `user.role = role` on the object returned by `find`: the array
holds that same object, so the first account with the username changes in place. -/
def setRoleOfFound (users : List Account) (username role : String) : List Account :=
  match users with
  | [] => []
  | u :: rest =>
    if u.username == username then { u with role := role } :: rest
    else u :: setRoleOfFound rest username role

/-! ## Session lifecycle -/

/-- The method `app.showPage(pageId)`, reduced to which page is shown. -/
def showPage (pageId : String) (s : AppState) : AppState :=
  { s with page := pageId }

/-- The method `app.register()`; `username` and `date` are the values of the two
form fields, `toISOString now` is `new Date().toISOString()`. -/
def register (toISOString : Int → String) (now : Int) (username date : String)
    (s : AppState) : AppState × Notice :=
  match findUser s.db.users username with
  | some _ => (s, Notice.pseudonymTaken)
  | none =>
    let newUser : Account :=
      { id := toString now
        username := username
        role := "participant"
        sobrietyDate := if date = "" then toISOString now else date
        joined := toISOString now }
    let s1 := { s with db := { s.db with users := s.db.users ++ [newUser] } }
    let s2 := DB.save s1
    (showPage "login" s2, Notice.accountCreated)

/-- The method `app.login()` up to and including the write of `rp_session`, followed
by the `showPage` call with which `loadDashboard` opens. -/
def login (toISOString : Int → String) (now : Int) (username role : String)
    (s : AppState) : AppState :=
  match findUser s.db.users username with
  | none =>
    let user : Account :=
      { id := "demo_" ++ toString now
        username := username
        role := role
        sobrietyDate := toISOString now
        joined := toISOString now }
    let s1 := { s with db := { s.db with users := s.db.users ++ [user] } }
    let s2 := DB.save s1
    showPage "dashboard" { s2 with currentUser := some user, session := some user }
  | some found =>
    let user : Account := { found with role := role }
    let s1 := { s with db := { s.db with users := setRoleOfFound s.db.users username role } }
    showPage "dashboard" { s1 with currentUser := some user, session := some user }

/-! ## Sobriety counter -/

/-- The constant `1000 * 60 * 60 * 24`: milliseconds in a day. -/
def msPerDay : Int := 1000 * 60 * 60 * 24

/-- The two lines `diffTime = Math.abs(now - start)` and
`diffDays = Math.ceil(diffTime / msPerDay)` of the participant home view. Time
values are integers, and the quotient is the exact rational one; a `Date`
difference below `2 ^ 53` ms is computed exactly by the double arithmetic of the
source, and its quotient by `msPerDay` lies farther from the integer below it than
half a unit in the last place, so the rounded-up result is the same. -/
def diffDays (now start : Int) : Int :=
  let diffTime : Int := |now - start|
  Int.ceil ((diffTime : ℚ) / (msPerDay : ℚ))

/-- Day count shown by the participant home view: `new Date(sobrietyDate)` is
`parseDate`, which is `none` for an invalid date (the count is then `NaN`). -/
def homeDayCount (parseDate : String → Option Int) (now : Int) (user : Account) :
    Option Int :=
  match parseDate user.sobrietyDate with
  | none => none
  | some start => some (diffDays now start)

/-! ## Journal encoding: `btoa` and `atob`

The two functions are the forgiving-base64 encode and decode of the HTML Standard,
on strings whose code points are the bytes. -/

/-- Character of a 6-bit value in the base64 alphabet `A-Z a-z 0-9 + /`. -/
def b64Char (v : Nat) : Char :=
  if v < 26 then Char.ofNat (65 + v)
  else if v < 52 then Char.ofNat (97 + (v - 26))
  else if v < 62 then Char.ofNat (48 + (v - 52))
  else if v = 62 then '+'
  else '/'

/-- Value of a base64 alphabet character, `none` for any other character. -/
def b64Val (c : Char) : Option Nat :=
  let n := c.toNat
  if 65 ≤ n ∧ n ≤ 90 then some (n - 65)
  else if 97 ≤ n ∧ n ≤ 122 then some (n - 97 + 26)
  else if 48 ≤ n ∧ n ≤ 57 then some (n - 48 + 52)
  else if n = 43 then some 62
  else if n = 47 then some 63
  else none

/-- Base64 encoding of a byte sequence, three bytes to four characters, the last
group padded with `=`. -/
def encodeBytes : List Nat → List Char
  | [] => []
  | [a] => [b64Char (a / 4), b64Char (a % 4 * 16), '=', '=']
  | [a, b] => [b64Char (a / 4), b64Char (a % 4 * 16 + b / 16), b64Char (b % 16 * 4), '=']
  | a :: b :: c :: rest =>
    b64Char (a / 4) :: b64Char (a % 4 * 16 + b / 16) :: b64Char (b % 16 * 4 + c / 64)
      :: b64Char (c % 64) :: encodeBytes rest

/-- The function `btoa`: `none` (an `InvalidCharacterError`) when the text has a
code point above U+00FF, otherwise the base64 encoding of its code points. -/
def btoa (text : String) : Option String :=
  if text.toList.all (fun c => decide (c.toNat ≤ 255)) then
    some (String.mk (encodeBytes (text.toList.map Char.toNat)))
  else none

/-- ASCII whitespace: tab, line feed, form feed, carriage return, space. -/
def isAsciiWhitespace (c : Char) : Bool :=
  c.toNat == 9 || c.toNat == 10 || c.toNat == 12 || c.toNat == 13 || c.toNat == 32

/-- Removal of one or two trailing `=` when the length is a multiple of four. -/
def stripPadding (data : List Char) : List Char :=
  if data.length % 4 = 0 then
    match data.reverse with
    | '=' :: '=' :: r => r.reverse
    | '=' :: r => r.reverse
    | _ => data
  else data

/-- Bytes of a sequence of 6-bit values: every four values give three bytes; a final
group of three gives two bytes and of two gives one byte, the spare bits dropped. -/
def decodeSextets : List Nat → List Nat
  | a :: b :: c :: d :: rest =>
    (a * 4 + b / 16) :: (b % 16 * 16 + c / 4) :: (c % 4 * 64 + d) :: decodeSextets rest
  | [a, b, c] => [a * 4 + b / 16, b % 16 * 16 + c / 4]
  | [a, b] => [a * 4 + b / 16]
  | _ => []

/-- The function `atob`: whitespace is removed, then the padding; `none` (an
`InvalidCharacterError`) when the remaining length is 1 modulo 4 or a character is
outside the alphabet, otherwise the string of the decoded bytes. -/
def atob (data : String) : Option String :=
  let d := stripPadding (data.toList.filter (fun c => !isAsciiWhitespace c))
  if d.length % 4 = 1 then none
  else
    match d.mapM b64Val with
    | none => none
    | some vs => some (String.mk ((decodeSextets vs).map Char.ofNat))

/-- The 6-bit values that `encodeBytes` writes, before the alphabet is applied. -/
def encodeSextets : List Nat → List Nat
  | [] => []
  | [a] => [a / 4, a % 4 * 16]
  | [a, b] => [a / 4, a % 4 * 16 + b / 16, b % 16 * 4]
  | a :: b :: c :: rest =>
    a / 4 :: (a % 4 * 16 + b / 16) :: (b % 16 * 4 + c / 64) :: c % 64 :: encodeSextets rest

/-- The padding that `encodeBytes` writes after the last group. -/
def padOf : List Nat → List Char
  | [] => []
  | [_] => ['=', '=']
  | [_, _] => ['=']
  | _ :: _ :: _ :: rest => padOf rest

/-! ## Journal -/

/-- The method `app.addJournalEntry()`, `text` being the value of the entry field.
Empty text returns at once. `btoa` runs before the entry object is built, and the
entry reads `this.currentUser.id`, a `TypeError` when nobody is signed in. The new
entry goes to the front of `DB.journals` (`unshift`), then `DB.save()`. -/
def addJournalEntry (toISOString : Int → String) (now : Int) (text : String)
    (s : AppState) : Except String AppState :=
  if text = "" then Except.ok s
  else
    match btoa text with
    | none => Except.error "InvalidCharacterError"
    | some encrypted =>
      match s.currentUser with
      | none => Except.error "TypeError"
      | some user =>
        let entry : JournalEntry :=
          { id := now
            userId := user.id
            content := encrypted
            date := toISOString now }
        Except.ok (DB.save { s with db := { s.db with journals := entry :: s.db.journals } })

/-- One rendered journal card: the date line and the paragraph text. -/
structure JournalCard where
  dateStr : String
  content : String
  deriving DecidableEq

/-- What `renderJournalList` leaves behind: the children appended to the
`journal-list` element and the lines written with `console.error`. -/
structure JournalRender where
  list : List JournalCard
  console : List String
  deriving DecidableEq

/-- Body of the `try` block for one entry: `atob(entry.content)` may throw, the
date is formatted, and the card is built. -/
def renderEntry (toLocaleDateString : String → String) (entry : JournalEntry) :
    Except String JournalCard :=
  match atob entry.content with
  | none => Except.error "InvalidCharacterError"
  | some content =>
    Except.ok { dateStr := toLocaleDateString entry.date, content := content }

/-- The loop `userEntries.forEach(entry => { try { ... } catch (e) { ... } })`: a
card is appended when the body succeeds, a console line is written when it throws,
and the loop goes on to the next entry either way. -/
def renderLoop (toLocaleDateString : String → String) :
    List JournalEntry → JournalRender → JournalRender
  | [], out => out
  | entry :: rest, out =>
    match renderEntry toLocaleDateString entry with
    | Except.ok div =>
      renderLoop toLocaleDateString rest { out with list := out.list ++ [div] }
    | Except.error e =>
      renderLoop toLocaleDateString rest
        { out with console := out.console ++ ["Decryption failed " ++ e] }

/-- The method `app.renderJournalList()`. The filter callback reads
`this.currentUser.id`, so with nobody signed in it throws a `TypeError` as soon as
`DB.journals` has an element. -/
def renderJournalList (toLocaleDateString : String → String) (s : AppState) :
    Except String JournalRender :=
  match s.currentUser with
  | none =>
    if s.db.journals.isEmpty then Except.ok { list := [], console := [] }
    else Except.error "TypeError"
  | some user =>
    let userEntries := s.db.journals.filter (fun j => j.userId == user.id)
    Except.ok (renderLoop toLocaleDateString userEntries { list := [], console := [] })

/-- Rendered list as the specification words it: of the entries owned by the
account `userId`, in collection order, those whose payload decodes, each with its
decoded text; the others are left out. -/
def expectedJournalCards (toLocaleDateString : String → String) (userId : String)
    (journals : List JournalEntry) : List JournalCard :=
  (journals.filter (fun j => j.userId == userId)).filterMap
    (fun e => (atob e.content).map
      (fun text => { dateStr := toLocaleDateString e.date, content := text }))

/-- A journal entry `e` is the one that the save `p` (clock reading and text) of the
account `userId` creates: its payload decodes to the text. -/
def EntryOfSave (toISOString : Int → String) (userId : String) (e : JournalEntry)
    (p : Int × String) : Prop :=
  e.id = p.1 ∧ e.userId = userId ∧ atob e.content = some p.2 ∧ e.date = toISOString p.1

instance (toISOString : Int → String) (userId : String) (e : JournalEntry)
    (p : Int × String) : Decidable (EntryOfSave toISOString userId e p) := by
  unfold EntryOfSave
  infer_instance

/-- A run of journal-save actions, each with its clock reading and its text. A
save whose handler throws has assigned nothing, so the next one starts from the
same state. -/
def saveJournalEntries (toISOString : Int → String) :
    List (Int × String) → AppState → AppState
  | [], s => s
  | (now, text) :: rest, s =>
    match addJournalEntry toISOString now text s with
    | Except.ok s1 => saveJournalEntries toISOString rest s1
    | Except.error _ => saveJournalEntries toISOString rest s

/-! ## Support request -/

/-- The method `app.processSupportRequest(notifySponsor)`: the alert object reads
`this.currentUser.id` (a `TypeError` when nobody is signed in), is pushed to the end
of `DB.alerts`, then `DB.save()`. -/
def processSupportRequest (toISOString : Int → String) (now : Int) (notifySponsor : Bool)
    (s : AppState) : Except String AppState :=
  match s.currentUser with
  | none => Except.error "TypeError"
  | some user =>
    let alert : SupportAlert :=
      { userId := user.id
        timestamp := toISOString now
        notifySponsor := notifySponsor
        status := "active" }
    Except.ok (DB.save { s with db := { s.db with alerts := s.db.alerts ++ [alert] } })

/-! ## Loading the store -/

/-- The two seed meetings, the default of `DB.meetings`. -/
def seedMeetings : List Meeting :=
  [ { id := 1, title := "Morning Reflection", time := "08:00 AM", type := "Open" },
    { id := 2, title := "Step Study", time := "06:00 PM", type := "Closed" } ]

/-- Content of one `localStorage` key as `JSON.parse(localStorage.getItem(key))`
meets it: the key was never written (`getItem` gives `null`), the text is not JSON,
the text is the JSON of a falsy value (`null`, `false`, `0`, `""`), or the text is
the JSON of a collection. -/
inductive StoredText (α : Type) where
  | absent : StoredText α
  | notJSON : StoredText α
  | falsyJSON : StoredText α
  | collection (value : α) : StoredText α
  deriving DecidableEq

/-- The call `JSON.parse(localStorage.getItem(key))`: `JSON.parse(null)` is `null`,
text that is not JSON throws a `SyntaxError`; `none` is a falsy result. -/
def parseStored {α : Type} : StoredText α → Except String (Option α)
  | StoredText.absent => Except.ok none
  | StoredText.notJSON => Except.error "SyntaxError"
  | StoredText.falsyJSON => Except.ok none
  | StoredText.collection value => Except.ok (some value)

/-- One initialiser of the `DB` object, `JSON.parse(localStorage.getItem(key)) || dflt`;
no `try` surrounds it. -/
def loadCollection {α : Type} (dflt : α) (entry : StoredText α) : Except String α :=
  match parseStored entry with
  | Except.error e => Except.error e
  | Except.ok none => Except.ok dflt
  | Except.ok (some value) => Except.ok value

/-- The four `localStorage` keys as the script finds them when it starts. -/
structure RawStorage where
  rp_users : StoredText (List Account)
  rp_meetings : StoredText (List Meeting)
  rp_journals : StoredText (List JournalEntry)
  rp_alerts : StoredText (List SupportAlert)
  deriving DecidableEq

/-- The object literal `const DB = { users: ..., meetings: ..., journals: ...,
alerts: ... }`, its four initialisers evaluated in this order; the first one that
throws ends the script. -/
def DB.load (ls : RawStorage) : Except String Store :=
  match loadCollection [] ls.rp_users with
  | Except.error e => Except.error e
  | Except.ok users =>
    match loadCollection seedMeetings ls.rp_meetings with
    | Except.error e => Except.error e
    | Except.ok meetings =>
      match loadCollection [] ls.rp_journals with
      | Except.error e => Except.error e
      | Except.ok journals =>
        match loadCollection [] ls.rp_alerts with
        | Except.error e => Except.error e
        | Except.ok alerts =>
          Except.ok { users := users, meetings := meetings, journals := journals,
                      alerts := alerts }

/-- No key holds text that is not JSON. -/
def RawStorage.parsable (ls : RawStorage) : Prop :=
  ls.rp_users ≠ StoredText.notJSON ∧ ls.rp_meetings ≠ StoredText.notJSON ∧
    ls.rp_journals ≠ StoredText.notJSON ∧ ls.rp_alerts ≠ StoredText.notJSON

instance (ls : RawStorage) : Decidable ls.parsable := by
  unfold RawStorage.parsable
  infer_instance

/-- What the specification asks of one loaded collection: the default for an absent
key or a falsy value, the stored collection otherwise. -/
def LoadsAs {α : Type} (dflt : α) (entry : StoredText α) (loaded : α) : Prop :=
  (entry = StoredText.absent → loaded = dflt) ∧
    (entry = StoredText.falsyJSON → loaded = dflt) ∧
    (∀ value, entry = StoredText.collection value → loaded = value)

/-- One key written by `DB.save` (or never written), as the next start finds it. -/
def storedText {α : Type} : Option α → StoredText α
  | none => StoredText.absent
  | some value => StoredText.collection value

/-- The durable storage that `DB.save` leaves, as the next start finds it. -/
def LocalStorage.toRaw (ls : LocalStorage) : RawStorage :=
  { rp_users := storedText ls.rp_users
    rp_meetings := storedText ls.rp_meetings
    rp_journals := storedText ls.rp_journals
    rp_alerts := storedText ls.rp_alerts }

/-- The session check of `app.init()`: a cached account becomes `currentUser` and
`loadDashboard` shows the dashboard. -/
def init (s : AppState) : AppState :=
  match s.session with
  | some user => showPage "dashboard" { s with currentUser := some user }
  | none => s

/-- A page reload: the script runs again, `DB` is built from `localStorage`,
`app.currentUser` starts as `null`, and `app.init()` runs; both storages survive.
The page the markup shows at first is `initialPage`. -/
def reload (initialPage : String) (s : AppState) : Except String AppState :=
  match DB.load (LocalStorage.toRaw s.localStorage) with
  | Except.error e => Except.error e
  | Except.ok db =>
    Except.ok (init { db := db, localStorage := s.localStorage, session := s.session,
                      currentUser := none, page := initialPage })

/-! ## Navigation and view dispatch -/

/-- The method `app.renderNav(role)`: the links it creates, as view id and label. -/
def renderNav (role : String) : List (String × String) :=
  [("home", "Overview")] ++
    (if role = "participant" then
      [("journal", "Encrypted Journal"), ("meetings", "Meetings"),
       ("privacy-settings", "Privacy Center")]
    else if role = "sponsor" then
      [("sponsees", "Sponsee Check-ins"), ("messages", "Secure Messages")]
    else if role = "facilitator" then
      [("schedule", "Schedule"), ("group-notes", "Group Notes")]
    else if role = "admin" then
      [("system", "System Health")]
    else [])

/-- What `renderView` leaves in the `content-area` element; `empty` is the cleared
container, `innerHTML` being the empty string. -/
inductive Content where
  | empty
  | participantHome (diffDays : Option Int) (meetings : List Meeting)
  | journal (rendered : JournalRender)
  | meetingSchedule (meetings : List Meeting)
  | privacyCenter
  | sponsees
  | messages
  | facilitatorDashboard
  | systemHealth (totalUsers : Nat)
  deriving DecidableEq

/-- The method `app.renderView(viewId)`: the container is cleared, the role is read
from `this.currentUser` (a `TypeError` when nobody is signed in), and the four
`if (role === ...)` blocks run one after the other, each overwriting the container
only in the branches it has. -/
def renderView (parseDate : String → Option Int) (toLocaleDateString : String → String)
    (now : Int) (viewId : String) (s : AppState) : Except String Content :=
  match s.currentUser with
  | none => Except.error "TypeError"
  | some user =>
    let role := user.role
    let afterParticipant : Except String Content :=
      if role = "participant" then
        if viewId = "home" then
          Except.ok (Content.participantHome (homeDayCount parseDate now user)
            (s.db.meetings.take 2))
        else if viewId = "journal" then
          match renderJournalList toLocaleDateString s with
          | Except.ok rendered => Except.ok (Content.journal rendered)
          | Except.error e => Except.error e
        else if viewId = "meetings" then Except.ok (Content.meetingSchedule s.db.meetings)
        else if viewId = "privacy-settings" then Except.ok Content.privacyCenter
        else Except.ok Content.empty
      else Except.ok Content.empty
    match afterParticipant with
    | Except.error e => Except.error e
    | Except.ok c1 =>
      let c2 :=
        if role = "sponsor" then
          if viewId = "home" ∨ viewId = "sponsees" then Content.sponsees
          else if viewId = "messages" then Content.messages
          else c1
        else c1
      let c3 :=
        if role = "facilitator" then
          if viewId = "home" ∨ viewId = "schedule" then Content.facilitatorDashboard
          else c2
        else c2
      let c4 :=
        if role = "admin" then
          if viewId = "home" ∨ viewId = "system" then Content.systemHealth s.db.users.length
          else c3
        else c3
      Except.ok c4

/-- The rows of the dispatch table of the specification, as (role, view id). -/
def dispatchTable : List (String × String) :=
  [ ("participant", "home"), ("participant", "journal"), ("participant", "meetings"),
    ("participant", "privacy-settings"),
    ("sponsor", "home"), ("sponsor", "sponsees"), ("sponsor", "messages"),
    ("facilitator", "home"), ("facilitator", "schedule"),
    ("admin", "home"), ("admin", "system") ]

/-- The four roles of the specification. -/
def roles : List String := ["participant", "sponsor", "facilitator", "admin"]

/-! ## Sample data used by the witnesses -/

/-- Stand-in for `Date.prototype.toISOString` on a time value. -/
def sampleISO (t : Int) : String := "T" ++ toString t

/-- An account of the participant `ann`. -/
def sampleAnn : Account :=
  { id := "100", username := "ann", role := "participant",
    sobrietyDate := "2024-01-01", joined := "T100" }

/-- An account of the sponsor `bob`. -/
def sampleBob : Account :=
  { id := "200", username := "bob", role := "sponsor",
    sobrietyDate := "2023-05-05", joined := "T200" }

/-- A store with the accounts `ann` and `bob`, nothing persisted, nobody signed in. -/
def sampleState : AppState :=
  { db := { users := [sampleAnn, sampleBob], meetings := seedMeetings,
            journals := [], alerts := [] }
    localStorage := { rp_users := none, rp_meetings := none,
                      rp_journals := none, rp_alerts := none }
    session := none
    currentUser := none
    page := "login" }

/-- Stand-in for the `Date` string constructor: one known date, anything else is
an invalid date. -/
def sampleParse (str : String) : Option Int :=
  if str = "2024-01-01" then some 1704067200000 else none

/-- Stand-in for `Date.prototype.toLocaleDateString` applied to a stored date. -/
def sampleFmt (date : String) : String := "on " ++ date

/-- The sample store with `ann` signed in. -/
def annSignedIn : AppState :=
  { sampleState with currentUser := some sampleAnn, session := some sampleAnn,
                     page := "dashboard" }

/-- The sample store with `ann` signed in and four journal entries: two of `ann`
that decode, one of `ann` with a corrupted payload, and one of `bob`. -/
def annJournal : AppState :=
  { annSignedIn with
    db := { annSignedIn.db with
      journals :=
        [ { id := 40, userId := "100", content := "YQ==", date := "T40" },
          { id := 30, userId := "200", content := "Ym9i", date := "T30" },
          { id := 20, userId := "100", content := "%%%", date := "T20" },
          { id := 10, userId := "100", content := "aGVsbG8=", date := "T10" } ] } }

/-- An account of the facilitator `fay`. -/
def sampleFay : Account :=
  { id := "300", username := "fay", role := "facilitator",
    sobrietyDate := "2022-02-02", joined := "T300" }

/-- The sample store with `fay` signed in. -/
def faySignedIn : AppState :=
  { sampleState with currentUser := some sampleFay, session := some sampleFay,
                     page := "dashboard" }

/-- Durable storage in which `rp_users` is text that is not JSON, the other keys
never written. -/
def corruptUsers : RawStorage :=
  { rp_users := StoredText.notJSON, rp_meetings := StoredText.absent,
    rp_journals := StoredText.absent, rp_alerts := StoredText.absent }

/-- Durable storage with a stored account collection, an emptied meeting
collection, a falsy journal value and no alert key. -/
def mixedStorage : RawStorage :=
  { rp_users := StoredText.collection [sampleAnn],
    rp_meetings := StoredText.collection [],
    rp_journals := StoredText.falsyJSON,
    rp_alerts := StoredText.absent }

/-- The sample store after a `DB.save()`: memory and durable storage agree. -/
def savedState : AppState := DB.save sampleState

/-! ## Lemmas on the account lookup -/

theorem findUser_eq_none {users : List Account} {username : String}
    (h : ∀ a ∈ users, a.username ≠ username) : findUser users username = none := by
  unfold findUser
  rw [List.find?_eq_none]
  intro a ha
  simpa using h a ha

theorem findUser_isSome {users : List Account} {username : String}
    (h : ∃ a ∈ users, a.username = username) :
    ∃ found, findUser users username = some found := by
  obtain ⟨a, ha, hu⟩ := h
  cases hf : findUser users username with
  | some found => exact ⟨found, rfl⟩
  | none =>
    unfold findUser at hf
    rw [List.find?_eq_none] at hf
    have := hf a ha
    simp [hu] at this

/-- Shape of the store around the account that `find` returns: it is the first
account with the username, and `setRoleOfFound` rewrites exactly that one. -/
theorem findUser_split (users : List Account) (username role : String) (found : Account)
    (h : findUser users username = some found) :
    ∃ pre post, users = pre ++ found :: post ∧ (∀ b ∈ pre, b.username ≠ username) ∧
      found.username = username ∧
      setRoleOfFound users username role = pre ++ { found with role := role } :: post := by
  induction users with
  | nil => simp [findUser] at h
  | cons u rest ih =>
    by_cases hu : u.username = username
    · have hb : (u.username == username) = true := by simpa using hu
      have hf : found = u := by
        simp only [findUser, List.find?_cons, hb, Option.some.injEq] at h
        exact h.symm
      subst hf
      exact ⟨[], rest, by simp, by simp, hu, by simp [setRoleOfFound, hu]⟩
    · have hb : (u.username == username) = false := by simpa using hu
      have h2 : findUser rest username = some found := by
        simpa only [findUser, List.find?_cons, hb] using h
      obtain ⟨pre, post, h1, h3, h4, h5⟩ := ih h2
      refine ⟨u :: pre, post, by simp [h1], ?_, h4, ?_⟩
      · intro b hb
        rcases List.mem_cons.mp hb with hb | hb
        · exact hb ▸ hu
        · exact h3 b hb
      · simp [setRoleOfFound, hu, h5]

/-! ## Registration -/

/-- C1: registering a username that some account of the store already has reports
the duplicate (the `pseudonymTaken` notice) and returns the state it was given:
the four collections, the durable storage and the session are as before. -/
theorem register_duplicate_unchanged (toISOString : Int → String) (now : Int)
    (username date : String) (s : AppState)
    (h : ∃ a ∈ s.db.users, a.username = username) :
    register toISOString now username date s = (s, Notice.pseudonymTaken) := by
  obtain ⟨found, hf⟩ := findUser_isSome h
  simp [register, hf]

theorem register_duplicate_unchanged_witness :
    (∃ a ∈ sampleState.db.users, a.username = "bob") ∧
      register sampleISO 5000 "bob" "2020-02-02" sampleState
        = (sampleState, Notice.pseudonymTaken) :=
  ⟨⟨sampleBob, by decide, by decide⟩,
   register_duplicate_unchanged sampleISO 5000 "bob" "2020-02-02" sampleState
     ⟨sampleBob, by decide, by decide⟩⟩

/-- C2: registering a username that no account of the store has appends exactly
one account at the end of the account collection, with that username, the role
`participant` and the supplied sobriety date, or the current time when the date
field is empty; the earlier accounts keep their place and content, and the new
collection is what the durable storage holds afterwards. -/
theorem register_fresh_appends (toISOString : Int → String) (now : Int)
    (username date : String) (s : AppState)
    (h : ∀ a ∈ s.db.users, a.username ≠ username) :
    ∃ newUser : Account,
      (register toISOString now username date s).1.db.users = s.db.users ++ [newUser] ∧
      newUser.username = username ∧
      newUser.role = "participant" ∧
      (date ≠ "" → newUser.sobrietyDate = date) ∧
      (date = "" → newUser.sobrietyDate = toISOString now) ∧
      (register toISOString now username date s).1.localStorage.rp_users
        = some (s.db.users ++ [newUser]) ∧
      (register toISOString now username date s).2 = Notice.accountCreated := by
  have hf := findUser_eq_none h
  refine ⟨{ id := toString now, username := username, role := "participant",
            sobrietyDate := if date = "" then toISOString now else date,
            joined := toISOString now }, ?_, rfl, rfl, ?_, ?_, ?_, ?_⟩
  · simp [register, hf, showPage, DB.save]
  · intro hd; simp [hd]
  · intro hd; simp [hd]
  · simp [register, hf, showPage, DB.save]
  · simp [register, hf]

theorem register_fresh_appends_witness :
    (∀ a ∈ sampleState.db.users, a.username ≠ "cy") ∧
    ∃ newUser : Account,
      (register sampleISO 5000 "cy" "" sampleState).1.db.users
        = sampleState.db.users ++ [newUser] ∧
      newUser.username = "cy" ∧
      newUser.role = "participant" ∧
      (("" : String) ≠ "" → newUser.sobrietyDate = "") ∧
      (("" : String) = "" → newUser.sobrietyDate = sampleISO 5000) ∧
      (register sampleISO 5000 "cy" "" sampleState).1.localStorage.rp_users
        = some (sampleState.db.users ++ [newUser]) ∧
      (register sampleISO 5000 "cy" "" sampleState).2 = Notice.accountCreated :=
  ⟨by decide, register_fresh_appends sampleISO 5000 "cy" "" sampleState (by decide)⟩

/-! ## Sign-in -/

/-- C3: signing in with a username that no account of the store has appends
exactly one account with that username, the selected role and the current time as
sobriety date; the new collection is written to durable storage, and that same
account is the current account of the session and the content of the session
cache. -/
theorem login_fresh_creates (toISOString : Int → String) (now : Int)
    (username role : String) (s : AppState)
    (h : ∀ a ∈ s.db.users, a.username ≠ username) :
    ∃ user : Account,
      (login toISOString now username role s).db.users = s.db.users ++ [user] ∧
      user.username = username ∧
      user.role = role ∧
      user.sobrietyDate = toISOString now ∧
      (login toISOString now username role s).localStorage.rp_users
        = some (s.db.users ++ [user]) ∧
      (login toISOString now username role s).currentUser = some user ∧
      (login toISOString now username role s).session = some user := by
  have hf := findUser_eq_none h
  refine ⟨{ id := "demo_" ++ toString now, username := username, role := role,
            sobrietyDate := toISOString now, joined := toISOString now },
          ?_, rfl, rfl, rfl, ?_, ?_, ?_⟩ <;>
    simp [login, hf, showPage, DB.save]

theorem login_fresh_creates_witness :
    (∀ a ∈ sampleState.db.users, a.username ≠ "dee") ∧
    ∃ user : Account,
      (login sampleISO 7000 "dee" "facilitator" sampleState).db.users
        = sampleState.db.users ++ [user] ∧
      user.username = "dee" ∧
      user.role = "facilitator" ∧
      user.sobrietyDate = sampleISO 7000 ∧
      (login sampleISO 7000 "dee" "facilitator" sampleState).localStorage.rp_users
        = some (sampleState.db.users ++ [user]) ∧
      (login sampleISO 7000 "dee" "facilitator" sampleState).currentUser = some user ∧
      (login sampleISO 7000 "dee" "facilitator" sampleState).session = some user :=
  ⟨by decide, login_fresh_creates sampleISO 7000 "dee" "facilitator" sampleState (by decide)⟩

/-- C4: signing in with a username that the store has keeps the number of
accounts, gives the first account with that username the selected role whatever
role it had, leaves the other fields of that account and every other account as
they were, and makes that account the current account of the session. -/
theorem login_existing_updates_role (toISOString : Int → String) (now : Int)
    (username role : String) (s : AppState)
    (h : ∃ a ∈ s.db.users, a.username = username) :
    ∃ (pre post : List Account) (found : Account),
      s.db.users = pre ++ found :: post ∧
      (∀ b ∈ pre, b.username ≠ username) ∧
      found.username = username ∧
      (login toISOString now username role s).db.users
        = pre ++ { found with role := role } :: post ∧
      (login toISOString now username role s).db.users.length = s.db.users.length ∧
      (login toISOString now username role s).currentUser
        = some { found with role := role } := by
  obtain ⟨found, hf⟩ := findUser_isSome h
  obtain ⟨pre, post, h1, h2, h3, h4⟩ := findUser_split s.db.users username role found hf
  have hu : (login toISOString now username role s).db.users
      = pre ++ { found with role := role } :: post := by
    simp [login, hf, showPage, h4]
  refine ⟨pre, post, found, h1, h2, h3, hu, ?_, ?_⟩
  · rw [hu, h1]; simp
  · simp [login, hf, showPage]

theorem login_existing_updates_role_witness :
    (∃ a ∈ sampleState.db.users, a.username = "bob") ∧
    ∃ (pre post : List Account) (found : Account),
      sampleState.db.users = pre ++ found :: post ∧
      (∀ b ∈ pre, b.username ≠ "bob") ∧
      found.username = "bob" ∧
      (login sampleISO 7000 "bob" "admin" sampleState).db.users
        = pre ++ { found with role := "admin" } :: post ∧
      (login sampleISO 7000 "bob" "admin" sampleState).db.users.length
        = sampleState.db.users.length ∧
      (login sampleISO 7000 "bob" "admin" sampleState).currentUser
        = some { found with role := "admin" } :=
  ⟨⟨sampleBob, by decide, by decide⟩,
   login_existing_updates_role sampleISO 7000 "bob" "admin" sampleState
     ⟨sampleBob, by decide, by decide⟩⟩

/-! ## Sobriety counter -/

theorem msPerDay_pos : (0 : ℚ) < (msPerDay : ℚ) := by
  simp [msPerDay]

theorem diffDays_of_abs (now start : Int) (n : Nat)
    (h : |now - start| = (n : Int) * msPerDay) : diffDays now start = n := by
  have hne : (msPerDay : ℚ) ≠ 0 := ne_of_gt msPerDay_pos
  unfold diffDays
  simp only [h, Int.cast_mul, Int.cast_natCast]
  rw [mul_div_assoc, div_self hne, mul_one]
  exact_mod_cast Int.ceil_natCast n

theorem diffDays_nonneg (now start : Int) : 0 ≤ diffDays now start := by
  unfold diffDays
  apply Int.ceil_nonneg
  apply div_nonneg
  · exact_mod_cast abs_nonneg (now - start)
  · exact le_of_lt msPerDay_pos

/-- C5: the day count of the participant home view is the ceiling of
`|now - start| / 86400000`; a sobriety date exactly `n` days before now gives `n`,
a sobriety date exactly `n` days after now gives `n` as well, and the count is
never negative. -/
theorem homeDayCount_spec (parseDate : String → Option Int) (now start : Int)
    (user : Account) (hp : parseDate user.sobrietyDate = some start) :
    homeDayCount parseDate now user
        = some (Int.ceil ((|now - start| : ℚ) / 86400000)) ∧
      (∀ n : Nat, start = now - n * 86400000 → homeDayCount parseDate now user = some (n : Int)) ∧
      (∀ n : Nat, start = now + n * 86400000 → homeDayCount parseDate now user = some (n : Int)) ∧
      (∀ d : Int, homeDayCount parseDate now user = some d → 0 ≤ d) := by
  have hc : homeDayCount parseDate now user = some (diffDays now start) := by
    simp [homeDayCount, hp]
  refine ⟨?_, ?_, ?_, ?_⟩
  · rw [hc]; simp [diffDays, msPerDay]
  · intro n hn
    have hd : |now - start| = (n : Int) * msPerDay := by
      have : now - start = (n : Int) * 86400000 := by rw [hn]; ring
      rw [this, abs_of_nonneg (by positivity)]
      simp [msPerDay]
    rw [hc, diffDays_of_abs now start n hd]
  · intro n hn
    have hd : |now - start| = (n : Int) * msPerDay := by
      have : now - start = -((n : Int) * 86400000) := by rw [hn]; ring
      rw [this, abs_neg, abs_of_nonneg (by positivity)]
      simp [msPerDay]
    rw [hc, diffDays_of_abs now start n hd]
  · intro d hd
    rw [hc] at hd
    cases hd
    exact diffDays_nonneg now start

theorem homeDayCount_spec_witness :
    sampleParse sampleAnn.sobrietyDate = some 1704067200000 ∧
    (homeDayCount sampleParse 1704326400000 sampleAnn
        = some (Int.ceil ((|(1704326400000 : Int) - 1704067200000| : ℚ) / 86400000)) ∧
      (∀ n : Nat, (1704067200000 : Int) = 1704326400000 - n * 86400000 →
        homeDayCount sampleParse 1704326400000 sampleAnn = some (n : Int)) ∧
      (∀ n : Nat, (1704067200000 : Int) = 1704326400000 + n * 86400000 →
        homeDayCount sampleParse 1704326400000 sampleAnn = some (n : Int)) ∧
      (∀ d : Int, homeDayCount sampleParse 1704326400000 sampleAnn = some d → 0 ≤ d)) :=
  ⟨by decide, homeDayCount_spec sampleParse 1704326400000 1704067200000 sampleAnn (by decide)⟩

/-! ## Journal encoding -/

theorem b64Val_b64Char : ∀ v, v < 64 → b64Val (b64Char v) = some v := by decide

theorem b64Char_ne_pad : ∀ v, v < 64 → b64Char v ≠ '=' := by decide

theorem b64Char_not_space : ∀ v, v < 64 → isAsciiWhitespace (b64Char v) = false := by decide

theorem encodeBytes_eq (bs : List Nat) :
    encodeBytes bs = (encodeSextets bs).map b64Char ++ padOf bs := by
  induction bs using encodeBytes.induct with
  | case1 => rfl
  | case2 a => rfl
  | case3 a b => rfl
  | case4 a b c rest ih => simp [encodeBytes, encodeSextets, padOf, ih]

theorem encodeSextets_lt (bs : List Nat) (h : ∀ b ∈ bs, b < 256) :
    ∀ v ∈ encodeSextets bs, v < 64 := by
  induction bs using encodeBytes.induct with
  | case1 => simp [encodeSextets]
  | case2 a =>
    have := h a (by simp)
    simp [encodeSextets]; omega
  | case3 a b =>
    have := h a (by simp)
    have := h b (by simp)
    simp [encodeSextets]; omega
  | case4 a b c rest ih =>
    have := h a (by simp)
    have := h b (by simp)
    have := h c (by simp)
    have ih2 := ih (fun x hx => h x (by simp [hx]))
    intro v hv
    simp only [encodeSextets, List.mem_cons] at hv
    rcases hv with hv | hv | hv | hv | hv
    · omega
    · omega
    · omega
    · omega
    · exact ih2 v hv

theorem decodeSextets_encodeSextets (bs : List Nat) (h : ∀ b ∈ bs, b < 256) :
    decodeSextets (encodeSextets bs) = bs := by
  induction bs using encodeBytes.induct with
  | case1 => rfl
  | case2 a =>
    have := h a (by simp)
    simp [encodeSextets, decodeSextets]; omega
  | case3 a b =>
    have := h a (by simp)
    have := h b (by simp)
    simp [encodeSextets, decodeSextets]; omega
  | case4 a b c rest ih =>
    have := h a (by simp)
    have := h b (by simp)
    have := h c (by simp)
    have ih2 := ih (fun x hx => h x (by simp [hx]))
    simp only [encodeSextets, decodeSextets, ih2]
    congr 1
    · omega
    congr 1
    · omega
    congr 1
    · omega

theorem padOf_cases (bs : List Nat) :
    padOf bs = [] ∨ padOf bs = ['='] ∨ padOf bs = ['=', '='] := by
  induction bs using encodeBytes.induct with
  | case1 => simp [padOf]
  | case2 a => simp [padOf]
  | case3 a b => simp [padOf]
  | case4 a b c rest ih => simpa [padOf] using ih

theorem encodeSextets_length (bs : List Nat) :
    (encodeSextets bs).length % 4 ≠ 1 ∧
      ((encodeSextets bs).length + (padOf bs).length) % 4 = 0 := by
  induction bs using encodeBytes.induct with
  | case1 => simp [encodeSextets, padOf]
  | case2 a => simp [encodeSextets, padOf]
  | case3 a b => simp [encodeSextets, padOf]
  | case4 a b c rest ih =>
    simp only [encodeSextets, padOf, List.length_cons]
    omega

theorem stripPadding_append (l pad : List Char) (hl : ∀ c ∈ l, c ≠ '=')
    (hpad : pad = [] ∨ pad = ['='] ∨ pad = ['=', '='])
    (hlen : (l.length + pad.length) % 4 = 0) : stripPadding (l ++ pad) = l := by
  have hrev : l.reverse = [] ∨ ∃ x r, l.reverse = x :: r ∧ x ≠ '=' := by
    cases hr : l.reverse with
    | nil => exact Or.inl rfl
    | cons x r =>
      refine Or.inr ⟨x, r, rfl, hl x ?_⟩
      have : x ∈ l.reverse := by rw [hr]; simp
      simpa using this
  have hlen2 : (l ++ pad).length % 4 = 0 := by simpa using hlen
  unfold stripPadding
  rw [if_pos hlen2]
  rcases hpad with hp | hp | hp <;> subst hp
  · rcases hrev with h | ⟨x, r, h, hx⟩
    · have : l = [] := by simpa using h
      subst this; rfl
    · simp only [List.append_nil, h]
      split
      · next heq => simp at heq; exact absurd heq.1 hx
      · next heq => simp at heq; exact absurd heq.1 hx
      · rfl
  · rcases hrev with h | ⟨x, r, h, hx⟩
    · have : l = [] := by simpa using h
      subst this; rfl
    · simp only [List.reverse_append, List.reverse_cons, List.reverse_nil, List.nil_append,
        List.singleton_append, h]
      split
      · next heq => simp at heq; exact absurd heq.1 hx
      · next heq =>
        simp at heq
        rw [← heq, ← h, List.reverse_reverse]
      · next h1 h2 => exact absurd rfl (h2 _)
  · simp only [List.reverse_append, List.reverse_cons, List.reverse_nil, List.nil_append,
        List.singleton_append, List.cons_append]
    simp
theorem mapM_b64Val_map (l : List Nat) (h : ∀ v ∈ l, v < 64) :
    (l.map b64Char).mapM b64Val = some l := by
  induction l with
  | nil => rfl
  | cons v rest ih =>
    have hv := b64Val_b64Char v (h v (by simp))
    have ih2 := ih (fun x hx => h x (by simp [hx]))
    rw [List.map_cons, List.mapM_cons, hv, ih2]
    rfl

theorem atob_encodeBytes (bs : List Nat) (h : ∀ b ∈ bs, b < 256) :
    atob (String.mk (encodeBytes bs)) = some (String.mk (bs.map Char.ofNat)) := by
  have hlt := encodeSextets_lt bs h
  have hlen := encodeSextets_length bs
  have hns : ∀ c ∈ encodeBytes bs, (!isAsciiWhitespace c) = true := by
    intro c hc
    rw [encodeBytes_eq, List.mem_append] at hc
    rcases hc with hc | hc
    · obtain ⟨v, hv, rfl⟩ := List.mem_map.mp hc
      simp [b64Char_not_space v (hlt v hv)]
    · rcases padOf_cases bs with hp | hp | hp <;> rw [hp] at hc <;> simp at hc <;>
        subst hc <;> decide
  have hfilter : (encodeBytes bs).filter (fun c => !isAsciiWhitespace c) = encodeBytes bs :=
    List.filter_eq_self.mpr hns
  have hstrip : stripPadding (encodeBytes bs) = (encodeSextets bs).map b64Char := by
    rw [encodeBytes_eq]
    apply stripPadding_append _ _ _ (padOf_cases bs)
    · simpa using hlen.2
    · intro c hc
      obtain ⟨v, hv, rfl⟩ := List.mem_map.mp hc
      exact b64Char_ne_pad v (hlt v hv)
  have hl1 : ¬ ((encodeSextets bs).map b64Char).length % 4 = 1 := by
    simpa using hlen.1
  unfold atob
  simp only [String.toList, hfilter, hstrip, if_neg hl1, mapM_b64Val_map _ hlt,
    decodeSextets_encodeSextets bs h]

theorem atob_btoa (x : String) (h : ∀ c ∈ x.toList, c.toNat ≤ 255) :
    ∃ y, btoa x = some y ∧ atob y = some x := by
  refine ⟨String.mk (encodeBytes (x.toList.map Char.toNat)), ?_, ?_⟩
  · unfold btoa
    rw [if_pos]
    simpa using h
  · rw [atob_encodeBytes]
    · have hm : (x.toList.map Char.toNat).map Char.ofNat = x.toList := by
        simp [List.map_map, Function.comp_def]
      rw [hm]
      cases x
      rfl
    · intro b hb
      obtain ⟨c, hc, rfl⟩ := List.mem_map.mp hb
      have := h c hc
      omega

/-- C6, as amended: for every text whose characters are all at most U+00FF the
encoding succeeds and decoding it gives the text back, and encoding that decoded
text gives the encoded payload back. -/
theorem journal_roundtrip_latin1 (x : String) (h : ∀ c ∈ x.toList, c.toNat ≤ 255) :
    ∃ y, btoa x = some y ∧ atob y = some x ∧ (atob y).bind btoa = some y := by
  obtain ⟨y, h1, h2⟩ := atob_btoa x h
  exact ⟨y, h1, h2, by simp [h2, h1]⟩

theorem journal_roundtrip_latin1_witness :
    (∀ c ∈ "hello".toList, c.toNat ≤ 255) ∧
      ∃ y, btoa "hello" = some y ∧ atob y = some "hello" ∧ (atob y).bind btoa = some y :=
  ⟨by decide, journal_roundtrip_latin1 "hello" (by decide)⟩

/-- C6, as stated, fails: the text `€` has no encoding at all, so decoding its
encoding does not give it back; and the text `YQ` decodes to `a`, whose encoding
is `YQ==`, not `YQ`. -/
theorem journal_roundtrip_counterexample :
    btoa "€" = none ∧ (btoa "€").bind atob ≠ some "€" ∧
      (atob "YQ").bind btoa = some "YQ==" ∧ (atob "YQ").bind btoa ≠ some "YQ" := by
  decide

/-! ## Journal rendering -/

/-- The loop appends, after what was already rendered, one card for every entry
whose payload decodes, in the order of the entries. -/
theorem renderLoop_list (fmt : String → String) (es : List JournalEntry)
    (out : JournalRender) :
    (renderLoop fmt es out).list
      = out.list ++ es.filterMap (fun e => (atob e.content).map
          (fun text => ({ dateStr := fmt e.date, content := text } : JournalCard))) := by
  induction es generalizing out with
  | nil => simp [renderLoop]
  | cons e rest ih =>
    cases ha : atob e.content with
    | none => simp [renderLoop, renderEntry, ha, ih]
    | some text => simp [renderLoop, renderEntry, ha, ih]

theorem renderJournalList_signedIn (fmt : String → String) (s : AppState) (user : Account)
    (h : s.currentUser = some user) :
    renderJournalList fmt s
      = Except.ok (renderLoop fmt (s.db.journals.filter (fun j => j.userId == user.id))
          { list := [], console := [] }) := by
  simp [renderJournalList, h]

/-- C7: with an account signed in, rendering the journal list raises no error, and
the rendered list is exactly the entries of that account whose payload decodes,
each with its decoded text, in collection order; an entry of that account whose
payload does not decode is left out and the remaining entries still render. -/
theorem renderJournalList_contains_failures (fmt : String → String) (s : AppState)
    (user : Account) (h : s.currentUser = some user) :
    ∃ r, renderJournalList fmt s = Except.ok r ∧
      r.list = expectedJournalCards fmt user.id s.db.journals := by
  refine ⟨_, renderJournalList_signedIn fmt s user h, ?_⟩
  rw [renderLoop_list]
  simp [expectedJournalCards]

theorem renderJournalList_contains_failures_witness :
    annJournal.currentUser = some sampleAnn ∧
    (∃ r, renderJournalList sampleFmt annJournal = Except.ok r ∧
      r.list = expectedJournalCards sampleFmt sampleAnn.id annJournal.db.journals) ∧
    expectedJournalCards sampleFmt sampleAnn.id annJournal.db.journals
      = [ { dateStr := "on T40", content := "a" },
          { dateStr := "on T10", content := "hello" } ] :=
  ⟨rfl, renderJournalList_contains_failures sampleFmt annJournal sampleAnn rfl, by decide⟩

/-- C8: with an account signed in, every card of the rendered journal list comes
from an entry of the collection whose owner id is the id of the current account,
and two stores whose entries of that account are the same render the same list,
whatever entries other accounts have. -/
theorem renderJournalList_own_entries_only (fmt : String → String) (s : AppState)
    (user : Account) (h : s.currentUser = some user) :
    ∃ r, renderJournalList fmt s = Except.ok r ∧
      (∀ card ∈ r.list, ∃ e ∈ s.db.journals, e.userId = user.id ∧
        atob e.content = some card.content ∧ card.dateStr = fmt e.date) ∧
      (∀ s2 : AppState, s2.currentUser = some user →
        s2.db.journals.filter (fun j => j.userId == user.id)
          = s.db.journals.filter (fun j => j.userId == user.id) →
        renderJournalList fmt s2 = Except.ok r) := by
  refine ⟨_, renderJournalList_signedIn fmt s user h, ?_, ?_⟩
  · intro card hc
    rw [renderLoop_list] at hc
    simp only [List.nil_append, List.mem_filterMap, List.mem_filter] at hc
    obtain ⟨e, ⟨he, hu⟩, hm⟩ := hc
    cases ht : atob e.content with
    | none => simp [ht] at hm
    | some text =>
      simp only [ht, Option.map_some', Option.some.injEq] at hm
      subst hm
      exact ⟨e, he, by simpa using hu, ht, rfl⟩
  · intro s2 h2 hf
    rw [renderJournalList_signedIn fmt s2 user h2, hf]

theorem renderJournalList_own_entries_only_witness :
    annJournal.currentUser = some sampleAnn ∧
    ∃ r, renderJournalList sampleFmt annJournal = Except.ok r ∧
      (∀ card ∈ r.list, ∃ e ∈ annJournal.db.journals, e.userId = sampleAnn.id ∧
        atob e.content = some card.content ∧ card.dateStr = sampleFmt e.date) ∧
      (∀ s2 : AppState, s2.currentUser = some sampleAnn →
        s2.db.journals.filter (fun j => j.userId == sampleAnn.id)
          = annJournal.db.journals.filter (fun j => j.userId == sampleAnn.id) →
        renderJournalList sampleFmt s2 = Except.ok r) :=
  ⟨rfl, renderJournalList_own_entries_only sampleFmt annJournal sampleAnn rfl⟩

/-! ## Journal saves -/

theorem addJournalEntry_ok (toISO : Int → String) (now : Int) (text : String)
    (s : AppState) (user : Account) (hu : s.currentUser = some user) (hne : text ≠ "")
    (hl : ∀ c ∈ text.toList, c.toNat ≤ 255) :
    ∃ e : JournalEntry, EntryOfSave toISO user.id e (now, text) ∧
      addJournalEntry toISO now text s
        = Except.ok (DB.save { s with db := { s.db with journals := e :: s.db.journals } }) := by
  obtain ⟨y, h1, h2⟩ := atob_btoa text hl
  exact ⟨{ id := now, userId := user.id, content := y, date := toISO now },
    ⟨rfl, rfl, h2, rfl⟩, by simp [addJournalEntry, hne, h1, hu]⟩

theorem saveJournalEntries_journals (toISO : Int → String) (saves : List (Int × String))
    (s : AppState) (user : Account) (hu : s.currentUser = some user)
    (hne : ∀ p ∈ saves, p.2 ≠ "")
    (hl : ∀ p ∈ saves, ∀ c ∈ p.2.toList, c.toNat ≤ 255) :
    ∃ newEntries : List JournalEntry,
      (saveJournalEntries toISO saves s).db.journals = newEntries ++ s.db.journals ∧
      List.Forall₂ (EntryOfSave toISO user.id) newEntries saves.reverse ∧
      (saveJournalEntries toISO saves s).currentUser = some user := by
  induction saves generalizing s with
  | nil => exact ⟨[], by simp [saveJournalEntries], by simp, by simpa [saveJournalEntries] using hu⟩
  | cons p rest ih =>
    obtain ⟨now, text⟩ := p
    obtain ⟨e, he, hadd⟩ := addJournalEntry_ok toISO now text s user hu
      (hne (now, text) (by simp)) (hl (now, text) (by simp))
    obtain ⟨es, h1, h2, h3⟩ := ih
      (DB.save { s with db := { s.db with journals := e :: s.db.journals } })
      (by simpa [DB.save] using hu)
      (fun q hq => hne q (by simp [hq])) (fun q hq => hl q (by simp [hq]))
    refine ⟨es ++ [e], ?_, ?_, ?_⟩
    · simp only [saveJournalEntries, hadd, h1]
      simp [DB.save]
    · rw [List.reverse_cons]
      exact List.rel_append h2 (List.Forall₂.cons he List.Forall₂.nil)
    · simpa only [saveJournalEntries, hadd] using h3

theorem cards_of_saves (toISO : Int → String) (fmt : String → String) (userId : String)
    (es : List JournalEntry) (ps : List (Int × String))
    (h : List.Forall₂ (EntryOfSave toISO userId) es ps) :
    (es.filter (fun j => j.userId == userId)).filterMap (fun e => (atob e.content).map
        (fun text => ({ dateStr := fmt e.date, content := text } : JournalCard)))
      = ps.map (fun p => ({ dateStr := fmt (toISO p.1), content := p.2 } : JournalCard)) := by
  induction h with
  | nil => rfl
  | cons hep _ ih =>
    obtain ⟨_, h2, h3, h4⟩ := hep
    simp [h2, h3, h4, ih]

/-- C9, as amended: for every run of journal saves by the current account whose
texts are non-empty and have only characters up to U+00FF, from any store, the
new entries stand in front of the earlier journal collection in reverse order of
creation, the earlier entries unchanged and in order after them, and the rendered
list shows the saved texts most recent first, followed by what was rendered
before. -/
theorem journal_saves_most_recent_first (toISO : Int → String) (fmt : String → String)
    (saves : List (Int × String)) (s : AppState) (user : Account)
    (hu : s.currentUser = some user)
    (hne : ∀ p ∈ saves, p.2 ≠ "")
    (hl : ∀ p ∈ saves, ∀ c ∈ p.2.toList, c.toNat ≤ 255) :
    ∃ (newEntries : List JournalEntry) (before after : JournalRender),
      (saveJournalEntries toISO saves s).db.journals = newEntries ++ s.db.journals ∧
      List.Forall₂ (EntryOfSave toISO user.id) newEntries saves.reverse ∧
      renderJournalList fmt s = Except.ok before ∧
      renderJournalList fmt (saveJournalEntries toISO saves s) = Except.ok after ∧
      after.list
        = saves.reverse.map
            (fun p => ({ dateStr := fmt (toISO p.1), content := p.2 } : JournalCard))
          ++ before.list := by
  obtain ⟨es, h1, h2, h3⟩ := saveJournalEntries_journals toISO saves s user hu hne hl
  refine ⟨es, _, _, h1, h2, renderJournalList_signedIn fmt s user hu,
    renderJournalList_signedIn fmt _ user h3, ?_⟩
  rw [renderLoop_list, renderLoop_list, h1, List.filter_append, List.filterMap_append,
    cards_of_saves toISO fmt user.id es saves.reverse h2]
  simp

theorem journal_saves_most_recent_first_witness :
    annJournal.currentUser = some sampleAnn ∧
    (∀ p ∈ [((50 : Int), "first"), (60, "second")], p.2 ≠ "") ∧
    (∀ p ∈ [((50 : Int), "first"), (60, "second")], ∀ c ∈ p.2.toList, c.toNat ≤ 255) ∧
    ∃ (newEntries : List JournalEntry) (before after : JournalRender),
      (saveJournalEntries sampleISO [(50, "first"), (60, "second")] annJournal).db.journals
        = newEntries ++ annJournal.db.journals ∧
      List.Forall₂ (EntryOfSave sampleISO sampleAnn.id) newEntries
        [((50 : Int), "first"), (60, "second")].reverse ∧
      renderJournalList sampleFmt annJournal = Except.ok before ∧
      renderJournalList sampleFmt
        (saveJournalEntries sampleISO [(50, "first"), (60, "second")] annJournal)
        = Except.ok after ∧
      after.list
        = [((50 : Int), "first"), (60, "second")].reverse.map
            (fun p => ({ dateStr := sampleFmt (sampleISO p.1), content := p.2 } : JournalCard))
          ++ before.list :=
  ⟨rfl, by decide, by decide,
   journal_saves_most_recent_first sampleISO sampleFmt [(50, "first"), (60, "second")]
     annJournal sampleAnn rfl (by decide) (by decide)⟩

/-- C9, as stated, fails: the text `€` is not empty, yet saving it throws in `btoa`
before anything is stored, so the journal collection stays empty and the rendered
list does not show the entry. -/
theorem journal_saves_counterexample :
    ("€" : String) ≠ "" ∧
      addJournalEntry sampleISO 9000 "€" annSignedIn = Except.error "InvalidCharacterError" ∧
      (saveJournalEntries sampleISO [(9000, "€")] annSignedIn).db.journals = [] ∧
      renderJournalList sampleFmt (saveJournalEntries sampleISO [(9000, "€")] annSignedIn)
        = Except.ok { list := [], console := [] } :=
  ⟨by decide, rfl, rfl, rfl⟩

/-! ## Support request -/

/-- C10: with an account signed in, a support request appends exactly one alert at
the end of the alert collection, owned by the current account, with status
`active` and the submitted notify-sponsor flag; the earlier alerts and the
account, meeting and journal collections are unchanged. -/
theorem processSupportRequest_appends (toISO : Int → String) (now : Int)
    (notifySponsor : Bool) (s : AppState) (user : Account)
    (h : s.currentUser = some user) :
    ∃ (s2 : AppState) (alert : SupportAlert),
      processSupportRequest toISO now notifySponsor s = Except.ok s2 ∧
      s2.db.alerts = s.db.alerts ++ [alert] ∧
      alert.userId = user.id ∧
      alert.status = "active" ∧
      alert.notifySponsor = notifySponsor ∧
      s2.db.users = s.db.users ∧
      s2.db.meetings = s.db.meetings ∧
      s2.db.journals = s.db.journals := by
  refine ⟨DB.save { s with db := { s.db with alerts := s.db.alerts ++
      [{ userId := user.id, timestamp := toISO now, notifySponsor := notifySponsor,
         status := "active" }] } },
    { userId := user.id, timestamp := toISO now, notifySponsor := notifySponsor,
      status := "active" }, ?_, rfl, rfl, rfl, rfl, rfl, rfl, rfl⟩
  simp only [processSupportRequest, h]

theorem processSupportRequest_appends_witness :
    annJournal.currentUser = some sampleAnn ∧
    ∃ (s2 : AppState) (alert : SupportAlert),
      processSupportRequest sampleISO 8000 true annJournal = Except.ok s2 ∧
      s2.db.alerts = annJournal.db.alerts ++ [alert] ∧
      alert.userId = sampleAnn.id ∧
      alert.status = "active" ∧
      alert.notifySponsor = true ∧
      s2.db.users = annJournal.db.users ∧
      s2.db.meetings = annJournal.db.meetings ∧
      s2.db.journals = annJournal.db.journals :=
  ⟨rfl, processSupportRequest_appends sampleISO 8000 true annJournal sampleAnn rfl⟩

/-! ## View dispatch -/

/-- C11: with an account signed in, a (role, view id) pair that is not a row of the
dispatch table leaves the container empty and raises no error; so does the pair
(facilitator, group-notes), which the facilitator navigation offers, and so does
every view id under a role string outside the four roles. -/
theorem renderView_unmatched_empty (parseDate : String → Option Int)
    (fmt : String → String) (now : Int) (viewId : String) (s : AppState) (user : Account)
    (h : s.currentUser = some user) :
    ((user.role, viewId) ∉ dispatchTable →
        renderView parseDate fmt now viewId s = Except.ok Content.empty) ∧
      (user.role = "facilitator" → viewId = "group-notes" →
        viewId ∈ (renderNav user.role).map Prod.fst ∧
          renderView parseDate fmt now viewId s = Except.ok Content.empty) ∧
      (user.role ∉ roles →
        renderView parseDate fmt now viewId s = Except.ok Content.empty) := by
  have key : (user.role, viewId) ∉ dispatchTable →
      renderView parseDate fmt now viewId s = Except.ok Content.empty := by
    intro hn
    simp only [dispatchTable, List.mem_cons, Prod.mk.injEq, List.mem_singleton,
      List.not_mem_nil, or_false, not_or, not_and] at hn
    obtain ⟨p1, p2, p3, p4, s1, s2, s3, f1, f2, a1, a2⟩ := hn
    simp only [renderView, h]
    by_cases hp : user.role = "participant"
    · simp [hp, p1 hp, p2 hp, p3 hp, p4 hp]
    · by_cases hs : user.role = "sponsor"
      · simp [hs, s1 hs, s2 hs, s3 hs]
      · by_cases hf : user.role = "facilitator"
        · simp [hf, f1 hf, f2 hf]
        · by_cases ha : user.role = "admin"
          · simp [ha, a1 ha, a2 ha]
          · simp [hp, hs, hf, ha]
  refine ⟨key, ?_, ?_⟩
  · intro hr hv
    refine ⟨?_, key ?_⟩
    · rw [hr, hv]; decide
    · rw [hr, hv]; decide
  · intro hr
    apply key
    intro hm
    apply hr
    simp only [dispatchTable, List.mem_cons, Prod.mk.injEq, List.mem_singleton,
      List.not_mem_nil, or_false] at hm
    simp only [roles, List.mem_cons, List.mem_singleton, List.not_mem_nil, or_false]
    tauto

/-- Every row of the dispatch table gives content: the table lists exactly the
pairs that render something. -/
theorem renderView_table_row (parseDate : String → Option Int) (fmt : String → String)
    (now : Int) (viewId : String) (s : AppState) (user : Account)
    (h : s.currentUser = some user) (hm : (user.role, viewId) ∈ dispatchTable) :
    ∃ c, renderView parseDate fmt now viewId s = Except.ok c ∧ c ≠ Content.empty := by
  simp only [dispatchTable, List.mem_cons, Prod.mk.injEq, List.mem_singleton,
    List.not_mem_nil, or_false] at hm
  rcases hm with ⟨hr, hv⟩ | ⟨hr, hv⟩ | ⟨hr, hv⟩ | ⟨hr, hv⟩ | ⟨hr, hv⟩ | ⟨hr, hv⟩ |
      ⟨hr, hv⟩ | ⟨hr, hv⟩ | ⟨hr, hv⟩ | ⟨hr, hv⟩ | ⟨hr, hv⟩ <;>
    simp [renderView, h, hr, hv, renderJournalList]

theorem renderView_unmatched_empty_witness :
    faySignedIn.currentUser = some sampleFay ∧
    (((sampleFay.role, "group-notes") ∉ dispatchTable →
        renderView sampleParse sampleFmt 5000 "group-notes" faySignedIn
          = Except.ok Content.empty) ∧
      (sampleFay.role = "facilitator" → "group-notes" = "group-notes" →
        "group-notes" ∈ (renderNav sampleFay.role).map Prod.fst ∧
          renderView sampleParse sampleFmt 5000 "group-notes" faySignedIn
            = Except.ok Content.empty) ∧
      (sampleFay.role ∉ roles →
        renderView sampleParse sampleFmt 5000 "group-notes" faySignedIn
          = Except.ok Content.empty)) ∧
    (sampleFay.role, "group-notes") ∉ dispatchTable :=
  ⟨rfl, renderView_unmatched_empty sampleParse sampleFmt 5000 "group-notes" faySignedIn
    sampleFay rfl, by decide⟩

/-! ## Loading the store -/

theorem loadCollection_loadsAs {α : Type} (dflt : α) (entry : StoredText α)
    (h : entry ≠ StoredText.notJSON) :
    ∃ loaded, loadCollection dflt entry = Except.ok loaded ∧ LoadsAs dflt entry loaded := by
  cases entry with
  | absent => exact ⟨dflt, rfl, by simp [LoadsAs]⟩
  | notJSON => exact absurd rfl h
  | falsyJSON => exact ⟨dflt, rfl, by simp [LoadsAs]⟩
  | collection value => exact ⟨value, rfl, by simp [LoadsAs]⟩

/-- An unparsable key ends the start of the script with a `SyntaxError`. -/
theorem DB.load_unparsable (ls : RawStorage) (h : ¬ ls.parsable) :
    DB.load ls = Except.error "SyntaxError" := by
  obtain ⟨u, m, j, a⟩ := ls
  cases u <;> cases m <;> cases j <;> cases a <;>
    first
      | rfl
      | exact absurd (by simp [RawStorage.parsable]) h

/-- C12, as amended: when no key is unparsable, load succeeds, and each of the four
collections is its default (the two seed meetings for the meetings, empty for the
accounts, journal entries and support alerts) when its key is absent or holds a
falsy value, and the stored collection otherwise; when a key is unparsable, no
default is substituted and load ends with the `SyntaxError` of `JSON.parse`. -/
theorem DB.load_spec (ls : RawStorage) :
    (ls.parsable →
      ∃ db, DB.load ls = Except.ok db ∧
        LoadsAs [] ls.rp_users db.users ∧
        LoadsAs seedMeetings ls.rp_meetings db.meetings ∧
        LoadsAs [] ls.rp_journals db.journals ∧
        LoadsAs [] ls.rp_alerts db.alerts) ∧
      (¬ ls.parsable → DB.load ls = Except.error "SyntaxError") := by
  refine ⟨?_, DB.load_unparsable ls⟩
  rintro ⟨hu, hm, hj, ha⟩
  obtain ⟨users, eu, su⟩ := loadCollection_loadsAs [] ls.rp_users hu
  obtain ⟨meetings, em, sm⟩ := loadCollection_loadsAs seedMeetings ls.rp_meetings hm
  obtain ⟨journals, ej, sj⟩ := loadCollection_loadsAs [] ls.rp_journals hj
  obtain ⟨alerts, ea, sa⟩ := loadCollection_loadsAs [] ls.rp_alerts ha
  exact ⟨{ users := users, meetings := meetings, journals := journals, alerts := alerts },
    by simp only [DB.load, eu, em, ej, ea], su, sm, sj, sa⟩

theorem DB.load_spec_witness :
    mixedStorage.parsable ∧
    (∃ db, DB.load mixedStorage = Except.ok db ∧
      LoadsAs [] mixedStorage.rp_users db.users ∧
      LoadsAs seedMeetings mixedStorage.rp_meetings db.meetings ∧
      LoadsAs [] mixedStorage.rp_journals db.journals ∧
      LoadsAs [] mixedStorage.rp_alerts db.alerts) ∧
    DB.load mixedStorage
      = Except.ok { users := [sampleAnn], meetings := [], journals := [], alerts := [] } :=
  ⟨by decide, (DB.load_spec mixedStorage).1 (by decide), rfl⟩

/-- C12, as stated, fails: with an unparsable `rp_users` key the load does not
yield the default account collection, it throws a `SyntaxError`. -/
theorem DB.load_counterexample :
    DB.load corruptUsers = Except.error "SyntaxError" ∧
      DB.load corruptUsers
        ≠ Except.ok { users := [], meetings := seedMeetings, journals := [], alerts := [] } :=
  ⟨rfl, by simp [DB.load, loadCollection, parseStored, corruptUsers]⟩

/-! ## Username uniqueness -/

theorem findUser_none_ne {users : List Account} {username : String}
    (h : findUser users username = none) : username ∉ users.map (fun a => a.username) := by
  unfold findUser at h
  rw [List.find?_eq_none] at h
  intro hm
  obtain ⟨a, ha, hu⟩ := List.mem_map.mp hm
  have := h a ha
  simp [hu] at this

theorem setRoleOfFound_usernames (users : List Account) (username role : String) :
    (setRoleOfFound users username role).map (fun a => a.username)
      = users.map (fun a => a.username) := by
  induction users with
  | nil => rfl
  | cons u rest ih =>
    by_cases hu : u.username = username
    · simp [setRoleOfFound, hu]
    · simp [setRoleOfFound, hu, ih]

theorem nodup_usernames_append (users : List Account) (newUser : Account)
    (h : (users.map (fun a => a.username)).Nodup)
    (hn : newUser.username ∉ users.map (fun a => a.username)) :
    ((users ++ [newUser]).map (fun a => a.username)).Nodup := by
  rw [List.map_append, List.nodup_append]
  refine ⟨h, by simp, ?_⟩
  intro x hx hy
  simp only [List.map_cons, List.map_nil, List.mem_singleton] at hy
  exact hn (hy ▸ hx)

/-- C13: when the usernames of the account collection are pairwise distinct, they
are pairwise distinct again after a `register` call and after a `login` call,
whatever the username, role and date, and whether or not the registration went
through. -/
theorem username_uniqueness_invariant (toISO : Int → String) (now : Int)
    (username role date : String) (s : AppState)
    (h : (s.db.users.map (fun a => a.username)).Nodup) :
    ((register toISO now username date s).1.db.users.map (fun a => a.username)).Nodup ∧
      ((login toISO now username role s).db.users.map (fun a => a.username)).Nodup := by
  cases hf : findUser s.db.users username with
  | none =>
    have hn := findUser_none_ne hf
    constructor
    · simp only [register, hf, showPage, DB.save]
      exact nodup_usernames_append s.db.users _ h hn
    · simp only [login, hf, showPage, DB.save]
      exact nodup_usernames_append s.db.users _ h hn
  | some found =>
    constructor
    · simpa only [register, hf] using h
    · simp only [login, hf, showPage]
      rw [setRoleOfFound_usernames]
      exact h

theorem username_uniqueness_invariant_witness :
    (sampleState.db.users.map (fun a => a.username)).Nodup ∧
    (((register sampleISO 5000 "cy" "" sampleState).1.db.users.map
        (fun a => a.username)).Nodup ∧
      ((login sampleISO 5000 "cy" "admin" sampleState).db.users.map
        (fun a => a.username)).Nodup) :=
  ⟨by decide, username_uniqueness_invariant sampleISO 5000 "cy" "admin" "" sampleState
    (by decide)⟩

/-! ## Sign-in and durable storage -/

/-- Storage written by `DB.save` always loads: each key gives its collection, a key
never written gives the default. -/
theorem DB.load_toRaw (ls : LocalStorage) :
    DB.load (LocalStorage.toRaw ls)
      = Except.ok { users := ls.rp_users.getD [], meetings := ls.rp_meetings.getD seedMeetings,
                    journals := ls.rp_journals.getD [], alerts := ls.rp_alerts.getD [] } := by
  obtain ⟨u, m, j, a⟩ := ls
  cases u <;> cases m <;> cases j <;> cases a <;> rfl

/-- A reload with a cached session account: the store is what durable storage
holds, and the cached account is the current account again. -/
theorem reload_with_session (initialPage : String) (s : AppState) (user : Account)
    (h : s.session = some user) :
    reload initialPage s
      = Except.ok
          { db := { users := s.localStorage.rp_users.getD [],
                    meetings := s.localStorage.rp_meetings.getD seedMeetings,
                    journals := s.localStorage.rp_journals.getD [],
                    alerts := s.localStorage.rp_alerts.getD [] }
            localStorage := s.localStorage
            session := some user
            currentUser := some user
            page := "dashboard" } := by
  simp only [reload, DB.load_toRaw, init, h, showPage]

/-- C14: signing in with a username that the store has writes nothing to durable
storage, while the session cache holds the account with the newly selected role;
so when the persisted record of that username has another role, a reload gives
that record back with its persisted role, and the restored session account
carries the selected role, different from the role of the record in the store. -/
theorem login_existing_not_persisted (toISO : Int → String) (now : Int)
    (username role initialPage : String) (s : AppState)
    (h : ∃ a ∈ s.db.users, a.username = username) :
    ∃ found, findUser s.db.users username = some found ∧
      (login toISO now username role s).localStorage = s.localStorage ∧
      (login toISO now username role s).session = some { found with role := role } ∧
      ∀ (stored : List Account) (persisted : Account),
        s.localStorage.rp_users = some stored →
        findUser stored username = some persisted →
        persisted.role ≠ role →
        ∃ (s2 : AppState) (restored : Account),
          reload initialPage (login toISO now username role s) = Except.ok s2 ∧
          findUser s2.db.users username = some persisted ∧
          s2.currentUser = some restored ∧
          restored = { found with role := role } ∧
          restored.role ≠ persisted.role := by
  obtain ⟨found, hf⟩ := findUser_isSome h
  have hls : (login toISO now username role s).localStorage = s.localStorage := by
    simp [login, hf, showPage]
  have hse : (login toISO now username role s).session
      = some { found with role := role } := by
    simp [login, hf, showPage]
  refine ⟨found, hf, hls, hse, ?_⟩
  intro stored persisted hst hp hne
  refine ⟨_, { found with role := role },
    reload_with_session initialPage _ _ hse, ?_, rfl, rfl, fun hr => hne hr.symm⟩
  simpa only [hls, hst, Option.getD_some] using hp

theorem login_existing_not_persisted_witness :
    (∃ a ∈ savedState.db.users, a.username = "bob") ∧
    ∃ found, findUser savedState.db.users "bob" = some found ∧
      (login sampleISO 7000 "bob" "admin" savedState).localStorage
        = savedState.localStorage ∧
      (login sampleISO 7000 "bob" "admin" savedState).session
        = some { found with role := "admin" } ∧
      ∀ (stored : List Account) (persisted : Account),
        savedState.localStorage.rp_users = some stored →
        findUser stored "bob" = some persisted →
        persisted.role ≠ "admin" →
        ∃ (s2 : AppState) (restored : Account),
          reload "login" (login sampleISO 7000 "bob" "admin" savedState) = Except.ok s2 ∧
          findUser s2.db.users "bob" = some persisted ∧
          s2.currentUser = some restored ∧
          restored = { found with role := "admin" } ∧
          restored.role ≠ persisted.role :=
  ⟨⟨sampleBob, by decide, by decide⟩,
   login_existing_not_persisted sampleISO 7000 "bob" "admin" "login" savedState
     ⟨sampleBob, by decide, by decide⟩⟩

end RecoverPeer
